import Mathlib

/-!
# The render/event loop of `src/main.cpp`

A shallow embedding of `main` from `src/main.cpp`: the window, the circle, the
event queue and the trace of library calls are an explicit state, each library
call is a function on that state, the inner `while (pollEvent)` loop and the
outer `while (isOpen)` loop are recursive functions.

The windowing library (SFML) is not part of the repository.  Its calls are
modelled after the library: `isOpen` reads whether the window still exists,
`close` destroys the window together with its event queue, `pollEvent` on an
open window hands out the pending events in first-in first-out order and
reports "no event" on an empty queue, `pollEvent` on a closed window always
reports "no event", and `clear`, `draw` and `display` only emit output.  The
numeric attributes of the circle are stored, never computed with, and are
modelled as integers.
-/

set_option linter.unusedVariables false

namespace SfmlDemo

/-! ## Data model -/

/-- An RGBA colour, as `sf::Color`. -/
structure Color where
  r : Nat
  g : Nat
  b : Nat
  a : Nat
  deriving DecidableEq

/-- The library constant `sf::Color::Green`: opaque green. -/
def Color.Green : Color := ⟨0, 255, 0, 255⟩

/-- The library constant `sf::Color::White`, the default fill colour of a shape. -/
def Color.White : Color := ⟨255, 255, 255, 255⟩

/-- A pair of coordinates, as `sf::Vector2`. -/
structure Vector2 where
  x : Int
  y : Int
  deriving DecidableEq

/-- The attributes of `sf::CircleShape` that `main` sets. -/
structure CircleShape where
  radius : Int
  fillColor : Color
  position : Vector2
  deriving DecidableEq

/-- The constructor `sf::CircleShape circle(radius)`: the given radius, default
fill colour and position. -/
def CircleShape.create (radius : Int) : CircleShape :=
  { radius := radius, fillColor := Color.White, position := ⟨0, 0⟩ }

/-- The setter `circle.setFillColor(color)`. -/
def CircleShape.setFillColor (c : CircleShape) (color : Color) : CircleShape :=
  { c with fillColor := color }

/-- The setter `circle.setPosition(position)`. -/
def CircleShape.setPosition (c : CircleShape) (position : Vector2) : CircleShape :=
  { c with position := position }

/-- A window event, tagged by kind.  `main` tells `Closed` from every other
kind and nothing more, so the other kinds are told apart by a number only. -/
inductive Event where
  | Closed
  | Other (kind : Nat)
  deriving DecidableEq

/-- The test `event->is<sf::Event::Closed>()`. -/
def Event.isClosed : Event → Bool
  | Event.Closed => true
  | Event.Other _ => false

/-- The argument `sf::VideoMode({ width, height })`. -/
structure VideoMode where
  width : Nat
  height : Nat
  deriving DecidableEq

/-- A call that `main` makes on the window, with its arguments or its result. -/
inductive Call where
  | create (mode : VideoMode) (title : String)
  | isOpen (result : Bool)
  | pollEvent (result : Option Event)
  | close
  | clear
  | draw (shape : CircleShape)
  | display
  deriving DecidableEq

/-- The window: its creation parameters, the open flag and the events queued
on it, oldest first. -/
structure RenderWindow where
  mode : VideoMode
  title : String
  isOpen : Bool
  pending : List Event
  deriving DecidableEq

/-- The state of `main`: its two local objects and the trace of the calls made
so far, oldest first. -/
structure State where
  window : RenderWindow
  circle : CircleShape
  calls : List Call
  deriving DecidableEq

/-! ## Library calls -/

/-- Append one call to the trace. -/
def State.emit (s : State) (c : Call) : State :=
  { s with calls := s.calls ++ [c] }

/-- The constructor `sf::RenderWindow window(mode, title)`: an open window with
no event pending. -/
def RenderWindow.create (mode : VideoMode) (title : String) : RenderWindow :=
  { mode := mode, title := title, isOpen := true, pending := [] }

/-- The call `window.isOpen()`. -/
def isOpen (s : State) : Bool × State :=
  (s.window.isOpen, s.emit (Call.isOpen s.window.isOpen))

/-- The call `window.pollEvent()`.  On an open window: the oldest pending
event, removed from the queue, or no event when the queue is empty.  On a
closed window: no event, whatever was queued. -/
def pollEvent (s : State) : Option Event × State :=
  if s.window.isOpen then
    match s.window.pending with
    | [] => (none, s.emit (Call.pollEvent none))
    | e :: rest =>
      (some e, { s with window := { s.window with pending := rest },
                        calls := s.calls ++ [Call.pollEvent (some e)] })
  else (none, s.emit (Call.pollEvent none))

/-- The call `window.close()`: the window is destroyed, and the events still
queued on it are gone with it. -/
def close (s : State) : State :=
  { s with window := { s.window with isOpen := false, pending := [] },
           calls := s.calls ++ [Call.close] }

/-- The call `window.clear()`. -/
def clear (s : State) : State :=
  s.emit Call.clear

/-- The call `window.draw(shape)`. -/
def draw (shape : CircleShape) (s : State) : State :=
  s.emit (Call.draw shape)

/-- The call `window.display()`. -/
def display (s : State) : State :=
  s.emit Call.display

/-- The environment queues a batch of events on the window.  The loop lets
events arrive only right after `isOpen` has returned true. -/
def arrive (batch : List Event) (s : State) : State :=
  { s with window := { s.window with pending := s.window.pending ++ batch } }

/-! ## The program -/

/-- The inner loop of `main` (lines 30 to 35):
`while (const std::optional event = window.pollEvent())
   if (event->is<sf::Event::Closed>()) window.close();` -/
def processEvents (s : State) : State :=
  match h : pollEvent s with
  | (none, s1) => s1
  | (some event, s1) =>
    if event.isClosed then processEvents (close s1) else processEvents s1
termination_by s.window.pending.length
decreasing_by
  all_goals
    simp_wf
    unfold pollEvent at h
    split at h
    · split at h
      · simp [State.emit] at h
      · next e rest hp =>
        simp only [Prod.mk.injEq, Option.some.injEq] at h
        simp [close, ← h.2, hp]
    · simp [State.emit] at h

/-- The body of the outer loop (lines 29 to 48): drain the events, then
`window.clear(); window.draw(circle); window.display();`. -/
def frame (s : State) : State :=
  let s1 := processEvents s
  let s2 := clear s1
  let s3 := draw s2.circle s2
  display s3

/-- What a run of the outer loop has come to: its last state, whether the loop
has exited, and how many times its body has run. -/
structure Run where
  final : State
  exited : Bool
  iterations : Nat
  deriving DecidableEq

/-- The outer loop of `main` (lines 27 to 49), `while (window.isOpen()) body`,
run against the batches of events the environment queues, one batch before
each drain.  When the batches are used up with the window still open the run
stops there, inside the loop, not exited. -/
def gameLoop : State → List (List Event) → Run
  | s, [] =>
    let (opened, s1) := isOpen s
    if opened then { final := s1, exited := false, iterations := 0 }
    else { final := s1, exited := true, iterations := 0 }
  | s, batch :: rest =>
    let (opened, s1) := isOpen s
    if opened then
      let r := gameLoop (frame (arrive batch s1)) rest
      { r with iterations := r.iterations + 1 }
    else { final := s1, exited := true, iterations := 0 }

/-- The state of `main` on entry to the loop (lines 7 to 24). -/
def setup : State :=
  let mode : VideoMode := ⟨800, 600⟩
  let window := RenderWindow.create mode "SFML window"
  let circle := CircleShape.create 100
  let circle := circle.setFillColor Color.Green
  let circle := circle.setPosition ⟨350, 250⟩
  { window := window, circle := circle, calls := [Call.create mode "SFML window"] }

/-- The function `main`: the run of the loop from `setup`, and the exit code:
`0` once the loop has exited (the end of `main` is reached, which returns 0),
none while the run is still inside the loop. -/
def main (feed : List (List Event)) : Run × Option Int :=
  let r := gameLoop setup feed
  (r, if r.exited then some 0 else none)

/-! ## Closed forms used in the statements -/

/-- The events the inner loop polls, given the open flag and the queue it
starts from: none on a closed window; on an open one the queue in order, up
to and including its first `Closed` event. -/
def polledEvents : Bool → List Event → List Event
  | false, _ => []
  | true, [] => []
  | true, e :: rest => e :: polledEvents (!e.isClosed) rest

/-- The calls the inner loop makes, given the open flag and the queue it
starts from: one poll per polled event, a close after a polled `Closed`, and
the last poll, which returns no event. -/
def drainCalls : Bool → List Event → List Call
  | false, _ => [Call.pollEvent none]
  | true, [] => [Call.pollEvent none]
  | true, e :: rest =>
    Call.pollEvent (some e) ::
      ((if e.isClosed then [Call.close] else []) ++ drainCalls (!e.isClosed) rest)

/-- The state in which the inner loop ends, in closed form. -/
def drained (s : State) : State :=
  { window := { s.window with
                isOpen := s.window.isOpen && !(s.window.pending.any Event.isClosed),
                pending := if s.window.isOpen then [] else s.window.pending },
    circle := s.circle,
    calls := s.calls ++ drainCalls s.window.isOpen s.window.pending }

/-- The calls of the render phase of `n` iterations drawing shape `c`. -/
def renderCalls (c : CircleShape) : Nat → List Call
  | 0 => []
  | n + 1 => Call.clear :: Call.draw c :: Call.display :: renderCalls c n

/-- Whether a call belongs to the render phase (clear, draw, display). -/
def Call.isRender : Call → Bool
  | Call.clear => true
  | Call.draw _ => true
  | Call.display => true
  | _ => false

/-- Whether a call creates a window. -/
def Call.isCreate : Call → Bool
  | Call.create _ _ => true
  | _ => false

/-- The results of the polls in a trace, in order. -/
def pollResults : List Call → List (Option Event)
  | [] => []
  | Call.pollEvent r :: rest => r :: pollResults rest
  | _ :: rest => pollResults rest

/-- Queue and drain one batch of events after another. -/
def drainBatches (s : State) (feed : List (List Event)) : State :=
  feed.foldl (fun acc batch => processEvents (arrive batch acc)) s

/-! ## The inner loop -/

theorem processEvents_closed (s : State) (h : s.window.isOpen = false) :
    processEvents s = s.emit (Call.pollEvent none) := by
  rw [processEvents]
  split
  · next s1 hp =>
    simp only [pollEvent, h, Bool.false_eq_true, if_false, Prod.mk.injEq, true_and] at hp
    exact hp.symm
  · next event s1 hp =>
    simp [pollEvent, h] at hp

theorem processEvents_nil (s : State) (h : s.window.pending = []) :
    processEvents s = s.emit (Call.pollEvent none) := by
  rw [processEvents]
  split
  · next s1 hp =>
    simp only [pollEvent, h, ite_self, Prod.mk.injEq, true_and] at hp
    exact hp.symm
  · next event s1 hp =>
    simp [pollEvent, h] at hp

theorem processEvents_cons (s : State) (e : Event) (rest : List Event)
    (ho : s.window.isOpen = true) (h : s.window.pending = e :: rest) :
    processEvents s =
      processEvents
        (if e.isClosed then
          close { s with window := { s.window with pending := rest },
                         calls := s.calls ++ [Call.pollEvent (some e)] }
        else
          { s with window := { s.window with pending := rest },
                   calls := s.calls ++ [Call.pollEvent (some e)] }) := by
  rw [processEvents]
  split
  · next s1 hp =>
    simp [pollEvent, h, ho] at hp
  · next event s1 hp =>
    simp only [pollEvent, h, ho, if_true, Prod.mk.injEq, Option.some.injEq] at hp
    obtain ⟨he, hs⟩ := hp
    subst he
    subst hs
    split <;> simp only [ho]

theorem processEvents_eq_aux (q : List Event) :
    ∀ s : State, s.window.pending = q → processEvents s = drained s := by
  induction q with
  | nil =>
    intro s h
    rw [processEvents_nil s h]
    obtain ⟨⟨mode, title, opened, pending⟩, circle, calls⟩ := s
    simp only at h
    subst h
    cases opened <;> simp [drained, State.emit, drainCalls]
  | cons e rest ih =>
    intro s h
    cases ho : s.window.isOpen
    · rw [processEvents_closed s ho]
      obtain ⟨⟨mode, title, opened, pending⟩, circle, calls⟩ := s
      simp only at ho
      subst ho
      simp [drained, State.emit, drainCalls]
    · rw [processEvents_cons s e rest ho h]
      cases he : e.isClosed
      · simp only [Bool.false_eq_true, if_false]
        rw [ih _ rfl]
        simp [drained, h, ho, he, drainCalls]
      · simp only [if_true]
        rw [processEvents_closed _ (by simp [close])]
        simp [drained, h, ho, he, drainCalls, close, State.emit]

/-- The inner loop ends in the state `drained`. -/
theorem processEvents_eq (s : State) : processEvents s = drained s :=
  processEvents_eq_aux s.window.pending s rfl

theorem any_isClosed_iff (q : List Event) :
    q.any Event.isClosed = true ↔ Event.Closed ∈ q := by
  induction q with
  | nil => simp
  | cons e rest ih =>
    cases e <;> simp [Event.isClosed, ih]

theorem any_isClosed_false (q : List Event) (h : Event.Closed ∉ q) :
    q.any Event.isClosed = false := by
  cases hq : q.any Event.isClosed
  · rfl
  · exact absurd ((any_isClosed_iff q).1 hq) h

theorem drainCalls_filter_isRender (q : List Event) :
    ∀ o : Bool, (drainCalls o q).filter Call.isRender = [] := by
  induction q with
  | nil => intro o; cases o <;> simp [drainCalls, Call.isRender]
  | cons e rest ih =>
    intro o
    cases o
    · simp [drainCalls, Call.isRender]
    · cases he : e.isClosed <;> simp [drainCalls, Call.isRender, he, ih]

theorem drainCalls_filter_isCreate (q : List Event) :
    ∀ o : Bool, (drainCalls o q).filter Call.isCreate = [] := by
  induction q with
  | nil => intro o; cases o <;> simp [drainCalls, Call.isCreate]
  | cons e rest ih =>
    intro o
    cases o
    · simp [drainCalls, Call.isCreate]
    · cases he : e.isClosed <;> simp [drainCalls, Call.isCreate, he, ih]

theorem pollResults_append (pre post : List Call) :
    pollResults (pre ++ post) = pollResults pre ++ pollResults post := by
  induction pre with
  | nil => simp [pollResults]
  | cons c rest ih =>
    cases c <;> simpa [pollResults] using ih

theorem drainCalls_pollResults (q : List Event) :
    ∀ o : Bool, pollResults (drainCalls o q) = (polledEvents o q).map some ++ [none] := by
  induction q with
  | nil => intro o; cases o <;> simp [drainCalls, polledEvents, pollResults]
  | cons e rest ih =>
    intro o
    cases o
    · simp [drainCalls, polledEvents, pollResults]
    · cases he : e.isClosed
      · simpa [drainCalls, polledEvents, pollResults, he] using ih true
      · simp [drainCalls, polledEvents, pollResults, he]

theorem drainCalls_count_close (q : List Event) :
    ∀ o : Bool, (drainCalls o q).count Call.close = (polledEvents o q).count Event.Closed := by
  induction q with
  | nil => intro o; cases o <;> simp [drainCalls, polledEvents]
  | cons e rest ih =>
    intro o
    cases o
    · simp [drainCalls, polledEvents]
    · cases e with
      | Closed => simp [drainCalls, polledEvents, Event.isClosed, ih]
      | Other k => simp [drainCalls, polledEvents, Event.isClosed, ih]

theorem polledEvents_closed (q : List Event) : polledEvents false q = [] := by
  cases q <;> rfl

theorem polledEvents_no_close (q : List Event) (h : Event.Closed ∉ q) :
    polledEvents true q = q := by
  induction q with
  | nil => rfl
  | cons e rest ih =>
    cases e with
    | Closed => simp at h
    | Other k =>
      have hr : Event.Closed ∉ rest := fun hm => h (List.mem_cons_of_mem _ hm)
      simp [polledEvents, Event.isClosed, ih hr]

theorem polledEvents_upto_close (before behind : List Event) (h : Event.Closed ∉ before) :
    polledEvents true (before ++ Event.Closed :: behind) = before ++ [Event.Closed] := by
  induction before with
  | nil => simp [polledEvents, Event.isClosed, polledEvents_closed]
  | cons e rest ih =>
    cases e with
    | Closed => simp at h
    | Other k =>
      have hr : Event.Closed ∉ rest := fun hm => h (List.mem_cons_of_mem _ hm)
      simp [polledEvents, Event.isClosed, ih hr]

theorem drainCalls_upto_close (before behind : List Event) (h : Event.Closed ∉ before) :
    drainCalls true (before ++ Event.Closed :: behind) =
      before.map (fun e => Call.pollEvent (some e)) ++
        [Call.pollEvent (some Event.Closed), Call.close, Call.pollEvent none] := by
  induction before with
  | nil => cases behind <;> simp [drainCalls, Event.isClosed]
  | cons e rest ih =>
    cases e with
    | Closed => simp at h
    | Other k =>
      have hr : Event.Closed ∉ rest := fun hm => h (List.mem_cons_of_mem _ hm)
      simp [drainCalls, Event.isClosed, ih hr]

theorem split_at_first_close (q : List Event) (h : Event.Closed ∈ q) :
    q = q.takeWhile (fun e => !e.isClosed) ++
      Event.Closed :: (q.dropWhile (fun e => !e.isClosed)).tail ∧
    Event.Closed ∉ q.takeWhile (fun e => !e.isClosed) := by
  induction q with
  | nil => simp at h
  | cons e rest ih =>
    cases e with
    | Closed => simp [Event.isClosed]
    | Other k =>
      have hr : Event.Closed ∈ rest := by simpa using h
      have := ih hr
      simp only [List.takeWhile_cons, List.dropWhile_cons, Event.isClosed, Bool.not_false,
        if_true, List.cons_append, List.cons.injEq, true_and, List.mem_cons, not_or]
      exact ⟨this.1, by simp, this.2⟩

/-! ## The loop body -/

theorem frame_eq (s : State) :
    frame s =
      { window := (drained s).window,
        circle := s.circle,
        calls := s.calls ++ drainCalls s.window.isOpen s.window.pending ++
          [Call.clear, Call.draw s.circle, Call.display] } := by
  simp [frame, processEvents_eq, drained, clear, draw, display, State.emit]

theorem frame_arrive_isOpen (s : State) (batch : List Event) (c : Call) :
    (frame (arrive batch (s.emit c))).window.isOpen =
      (s.window.isOpen && !((s.window.pending ++ batch).any Event.isClosed)) := by
  simp [frame_eq, drained, arrive, State.emit]

theorem frame_arrive_pending (s : State) (batch : List Event) (c : Call)
    (h : s.window.isOpen = true) :
    (frame (arrive batch (s.emit c))).window.pending = [] := by
  simp [frame_eq, drained, arrive, State.emit, h]

/-! ## The outer loop -/

theorem gameLoop_closed (s : State) (feed : List (List Event))
    (h : s.window.isOpen = false) :
    gameLoop s feed =
      { final := s.emit (Call.isOpen false), exited := true, iterations := 0 } := by
  cases feed <;> simp [gameLoop, isOpen, h]

theorem gameLoop_open_nil (s : State) (h : s.window.isOpen = true) :
    gameLoop s [] =
      { final := s.emit (Call.isOpen true), exited := false, iterations := 0 } := by
  simp [gameLoop, isOpen, h]

theorem gameLoop_open_cons (s : State) (batch : List Event) (rest : List (List Event))
    (h : s.window.isOpen = true) :
    gameLoop s (batch :: rest) =
      { final := (gameLoop (frame (arrive batch (s.emit (Call.isOpen true)))) rest).final,
        exited := (gameLoop (frame (arrive batch (s.emit (Call.isOpen true)))) rest).exited,
        iterations :=
          (gameLoop (frame (arrive batch (s.emit (Call.isOpen true)))) rest).iterations + 1 } := by
  simp [gameLoop, isOpen, h]

theorem gameLoop_exited_iff (feed : List (List Event)) :
    ∀ s : State, (gameLoop s feed).exited = true ↔
      (gameLoop s feed).final.window.isOpen = false := by
  induction feed with
  | nil =>
    intro s
    cases h : s.window.isOpen
    · simp [gameLoop_closed s [] h, State.emit, h]
    · simp [gameLoop_open_nil s h, State.emit, h]
  | cons batch rest ih =>
    intro s
    cases h : s.window.isOpen
    · simp [gameLoop_closed s _ h, State.emit, h]
    · rw [gameLoop_open_cons s batch rest h]
      exact ih _

theorem gameLoop_last_call (feed : List (List Event)) :
    ∀ s : State, (gameLoop s feed).final.calls.getLast? =
      some (Call.isOpen (!(gameLoop s feed).exited)) := by
  induction feed with
  | nil =>
    intro s
    cases h : s.window.isOpen
    · simp [gameLoop_closed s [] h, State.emit]
    · simp [gameLoop_open_nil s h, State.emit]
  | cons batch rest ih =>
    intro s
    cases h : s.window.isOpen
    · simp [gameLoop_closed s _ h, State.emit]
    · rw [gameLoop_open_cons s batch rest h]
      exact ih _

theorem gameLoop_running_iterations (feed : List (List Event)) :
    ∀ s : State, (gameLoop s feed).exited = false →
      (gameLoop s feed).iterations = feed.length := by
  induction feed with
  | nil =>
    intro s
    cases h : s.window.isOpen
    · simp [gameLoop_closed s [] h]
    · simp [gameLoop_open_nil s h]
  | cons batch rest ih =>
    intro s
    cases h : s.window.isOpen
    · simp [gameLoop_closed s _ h]
    · rw [gameLoop_open_cons s batch rest h]
      intro hr
      simpa using ih _ hr

theorem gameLoop_circle (feed : List (List Event)) :
    ∀ s : State, (gameLoop s feed).final.circle = s.circle := by
  induction feed with
  | nil =>
    intro s
    cases h : s.window.isOpen
    · simp [gameLoop_closed s [] h, State.emit]
    · simp [gameLoop_open_nil s h, State.emit]
  | cons batch rest ih =>
    intro s
    cases h : s.window.isOpen
    · simp [gameLoop_closed s _ h, State.emit]
    · rw [gameLoop_open_cons s batch rest h]
      simp only
      rw [ih]
      simp [frame_eq, arrive, State.emit]

theorem gameLoop_window_params (feed : List (List Event)) :
    ∀ s : State, (gameLoop s feed).final.window.mode = s.window.mode ∧
      (gameLoop s feed).final.window.title = s.window.title := by
  induction feed with
  | nil =>
    intro s
    cases h : s.window.isOpen
    · simp [gameLoop_closed s [] h, State.emit]
    · simp [gameLoop_open_nil s h, State.emit]
  | cons batch rest ih =>
    intro s
    cases h : s.window.isOpen
    · simp [gameLoop_closed s _ h, State.emit]
    · rw [gameLoop_open_cons s batch rest h]
      simp only
      rw [(ih _).1, (ih _).2]
      simp [frame_eq, drained, arrive, State.emit]

theorem gameLoop_filter_isRender (feed : List (List Event)) :
    ∀ s : State, (gameLoop s feed).final.calls.filter Call.isRender =
      s.calls.filter Call.isRender ++ renderCalls s.circle (gameLoop s feed).iterations := by
  induction feed with
  | nil =>
    intro s
    cases h : s.window.isOpen
    · simp [gameLoop_closed s [] h, State.emit, Call.isRender, renderCalls]
    · simp [gameLoop_open_nil s h, State.emit, Call.isRender, renderCalls]
  | cons batch rest ih =>
    intro s
    cases h : s.window.isOpen
    · simp [gameLoop_closed s _ h, State.emit, Call.isRender, renderCalls]
    · rw [gameLoop_open_cons s batch rest h]
      simp only
      rw [ih]
      simp [frame_eq, arrive, State.emit, Call.isRender, renderCalls,
        drainCalls_filter_isRender]

theorem gameLoop_filter_isCreate (feed : List (List Event)) :
    ∀ s : State, (gameLoop s feed).final.calls.filter Call.isCreate =
      s.calls.filter Call.isCreate := by
  induction feed with
  | nil =>
    intro s
    cases h : s.window.isOpen
    · simp [gameLoop_closed s [] h, State.emit, Call.isCreate]
    · simp [gameLoop_open_nil s h, State.emit, Call.isCreate]
  | cons batch rest ih =>
    intro s
    cases h : s.window.isOpen
    · simp [gameLoop_closed s _ h, State.emit, Call.isCreate]
    · rw [gameLoop_open_cons s batch rest h]
      simp only
      rw [ih]
      simp [frame_eq, arrive, State.emit, Call.isCreate, drainCalls_filter_isCreate]

theorem gameLoop_calls_extend (feed : List (List Event)) :
    ∀ s : State, ∃ added, (gameLoop s feed).final.calls = s.calls ++ added := by
  induction feed with
  | nil =>
    intro s
    cases h : s.window.isOpen
    · exact ⟨[Call.isOpen false], by simp [gameLoop_closed s [] h, State.emit]⟩
    · exact ⟨[Call.isOpen true], by simp [gameLoop_open_nil s h, State.emit]⟩
  | cons batch rest ih =>
    intro s
    cases h : s.window.isOpen
    · exact ⟨[Call.isOpen false], by simp [gameLoop_closed s _ h, State.emit]⟩
    · rw [gameLoop_open_cons s batch rest h]
      obtain ⟨added, ha⟩ := ih (frame (arrive batch (s.emit (Call.isOpen true))))
      refine ⟨[Call.isOpen true] ++ drainCalls true (s.window.pending ++ batch) ++
        [Call.clear, Call.draw s.circle, Call.display] ++ added, ?_⟩
      simp only
      rw [ha]
      simp [frame_eq, arrive, State.emit, h]

theorem gameLoop_no_close (feed : List (List Event)) :
    ∀ s : State, s.window.isOpen = true → Event.Closed ∉ s.window.pending →
      (∀ batch ∈ feed, Event.Closed ∉ batch) →
      (gameLoop s feed).exited = false ∧ (gameLoop s feed).final.window.isOpen = true ∧
        (gameLoop s feed).iterations = feed.length := by
  induction feed with
  | nil =>
    intro s h _ _
    simp [gameLoop_open_nil s h, State.emit, h]
  | cons batch rest ih =>
    intro s h hp hf
    rw [gameLoop_open_cons s batch rest h]
    have hb : Event.Closed ∉ batch := hf batch (by simp)
    have hq : (s.window.pending ++ batch).any Event.isClosed = false :=
      any_isClosed_false _ (by simp [hp, hb])
    have := ih (frame (arrive batch (s.emit (Call.isOpen true))))
      (by rw [frame_arrive_isOpen, h, hq]; rfl)
      (by rw [frame_arrive_pending _ _ _ h]; simp)
      (fun b hb2 => hf b (by simp [hb2]))
    simpa using this

theorem gameLoop_exited_iff_close (feed : List (List Event)) :
    ∀ s : State, s.window.isOpen = true → s.window.pending = [] →
      ((gameLoop s feed).exited = true ↔ ∃ batch ∈ feed, Event.Closed ∈ batch) := by
  induction feed with
  | nil =>
    intro s h _
    simp [gameLoop_open_nil s h]
  | cons batch rest ih =>
    intro s h hp
    rw [gameLoop_open_cons s batch rest h]
    simp only
    by_cases hb : Event.Closed ∈ batch
    · have hq : (s.window.pending ++ batch).any Event.isClosed = true :=
        (any_isClosed_iff _).2 (by simp [hb])
      rw [gameLoop_closed _ rest
        (by rw [frame_arrive_isOpen, h, hq]; rfl)]
      simp [hb]
    · have hq : (s.window.pending ++ batch).any Event.isClosed = false :=
        any_isClosed_false _ (by simp [hp, hb])
      rw [ih (frame (arrive batch (s.emit (Call.isOpen true))))
        (by rw [frame_arrive_isOpen, h, hq]; rfl)
        (frame_arrive_pending _ _ _ h)]
      simp [hb]

theorem processEvents_isOpen_of_no_close (s : State) (h : Event.Closed ∉ s.window.pending) :
    (processEvents s).window.isOpen = s.window.isOpen := by
  simp [processEvents_eq, drained, any_isClosed_false _ h]

theorem processEvents_pending_no_close (s : State) (h : Event.Closed ∉ s.window.pending) :
    Event.Closed ∉ (processEvents s).window.pending := by
  cases ho : s.window.isOpen
  · simpa [processEvents_eq, drained, ho] using h
  · simp [processEvents_eq, drained, ho]

theorem drainBatches_no_close (feed : List (List Event)) :
    ∀ s : State, Event.Closed ∉ s.window.pending →
      (∀ batch ∈ feed, Event.Closed ∉ batch) →
      (drainBatches s feed).window.isOpen = s.window.isOpen ∧
        (drainBatches s feed).circle = s.circle := by
  induction feed with
  | nil =>
    intro s _ _
    simp [drainBatches]
  | cons batch rest ih =>
    intro s hp hf
    have hb : Event.Closed ∉ batch := hf batch (by simp)
    have hq : Event.Closed ∉ (arrive batch s).window.pending := by
      simp [arrive, hp, hb]
    have := ih (processEvents (arrive batch s))
      (processEvents_pending_no_close _ hq)
      (fun b hb2 => hf b (by simp [hb2]))
    have e1 : drainBatches s (batch :: rest) =
        drainBatches (processEvents (arrive batch s)) rest := by
      simp [drainBatches]
    rw [e1, this.1, this.2, processEvents_isOpen_of_no_close _ hq]
    simp [processEvents_eq, drained, arrive]

theorem renderCalls_count_clear (c : CircleShape) (n : Nat) :
    (renderCalls c n).count Call.clear = n := by
  induction n with
  | zero => simp [renderCalls]
  | succ n ih => simp [renderCalls, ih]

theorem renderCalls_count_draw (c : CircleShape) (n : Nat) :
    (renderCalls c n).count (Call.draw c) = n := by
  induction n with
  | zero => simp [renderCalls]
  | succ n ih => simp [renderCalls, ih]

theorem renderCalls_count_display (c : CircleShape) (n : Nat) :
    (renderCalls c n).count Call.display = n := by
  induction n with
  | zero => simp [renderCalls]
  | succ n ih => simp [renderCalls, ih]

theorem renderCalls_draw_mem (c d : CircleShape) (n : Nat)
    (h : Call.draw d ∈ renderCalls c n) : d = c := by
  induction n with
  | zero => simp [renderCalls] at h
  | succ n ih =>
    simp only [renderCalls, List.mem_cons] at h
    rcases h with h | h | h | h
    · cases h
    · cases h; rfl
    · cases h
    · exact ih h

theorem main_filter_isRender (feed : List (List Event)) :
    (main feed).1.final.calls.filter Call.isRender =
      renderCalls setup.circle (main feed).1.iterations := by
  have := gameLoop_filter_isRender feed setup
  simpa [main, setup, Call.isRender] using this

/-! ## The claims -/

/-- C1: the outer loop exits exactly when `window.isOpen()` returns false at the
condition check.  For every start state and every feed of event batches: the
run has exited if and only if the last call of its trace is an `isOpen` that
returned false, if and only if the window of its last state is closed; a run
that has not exited has run the body once per batch, so nothing else ends the
loop; from a closed window the loop exits at once, without running the body;
from an open window the body runs once more and the loop goes on from the
state the body leaves. -/
theorem C1_loop_exits_iff_window_closed (s : State) (feed : List (List Event)) :
    ((gameLoop s feed).exited = true ↔
        (gameLoop s feed).final.calls.getLast? = some (Call.isOpen false)) ∧
    ((gameLoop s feed).exited = true ↔ (gameLoop s feed).final.window.isOpen = false) ∧
    ((gameLoop s feed).exited = false → (gameLoop s feed).iterations = feed.length) ∧
    (s.window.isOpen = false →
        gameLoop s feed =
          { final := s.emit (Call.isOpen false), exited := true, iterations := 0 }) ∧
    (s.window.isOpen = true → ∀ (batch : List Event) (rest : List (List Event)),
        (gameLoop s (batch :: rest)).final =
          (gameLoop (frame (arrive batch (s.emit (Call.isOpen true)))) rest).final ∧
        (gameLoop s (batch :: rest)).exited =
          (gameLoop (frame (arrive batch (s.emit (Call.isOpen true)))) rest).exited ∧
        (gameLoop s (batch :: rest)).iterations =
          (gameLoop (frame (arrive batch (s.emit (Call.isOpen true)))) rest).iterations + 1) := by
  refine ⟨?_, gameLoop_exited_iff feed s, gameLoop_running_iterations feed s,
    fun h => gameLoop_closed s feed h, ?_⟩
  · rw [gameLoop_last_call feed s]
    cases (gameLoop s feed).exited <;> simp
  · intro h batch rest
    rw [gameLoop_open_cons s batch rest h]
    exact ⟨rfl, rfl, rfl⟩

/-- C2: from a state with the window open, an iteration whose drained events
(those pending, then the batch just queued) contain a `Closed` event leaves
the window closed; the loop then exits at its next condition check, whatever
batches would follow: the run has exited after exactly this one iteration and
its last state is the state the iteration left, plus the failed check. -/
theorem C2_close_event_ends_loop (s : State) (batch : List Event)
    (rest : List (List Event)) (hopen : s.window.isOpen = true)
    (hclose : Event.Closed ∈ s.window.pending ++ batch) :
    (frame (arrive batch (s.emit (Call.isOpen true)))).window.isOpen = false ∧
    (gameLoop s (batch :: rest)).exited = true ∧
    (gameLoop s (batch :: rest)).iterations = 1 ∧
    (gameLoop s (batch :: rest)).final =
      (frame (arrive batch (s.emit (Call.isOpen true)))).emit (Call.isOpen false) ∧
    (gameLoop s (batch :: rest)).final.window.isOpen = false := by
  have hq : (s.window.pending ++ batch).any Event.isClosed = true :=
    (any_isClosed_iff _).2 hclose
  have hc : (frame (arrive batch (s.emit (Call.isOpen true)))).window.isOpen = false := by
    rw [frame_arrive_isOpen, hopen, hq]; rfl
  rw [gameLoop_open_cons s batch rest hopen, gameLoop_closed _ rest hc]
  exact ⟨hc, rfl, rfl, rfl, by simpa [State.emit] using hc⟩

/-- A run of C2: the window is created, `Closed` arrives between two other
events, and two more batches would follow. -/
theorem C2_close_event_ends_loop_witness :
    (gameLoop setup
        ([Event.Other 1, Event.Closed, Event.Other 2] :: [[Event.Other 3], []])).exited = true ∧
    (gameLoop setup
        ([Event.Other 1, Event.Closed, Event.Other 2] :: [[Event.Other 3], []])).iterations = 1 :=
  ⟨(C2_close_event_ends_loop setup [Event.Other 1, Event.Closed, Event.Other 2]
      [[Event.Other 3], []] (by decide) (by decide)).2.1,
   (C2_close_event_ends_loop setup [Event.Other 1, Event.Closed, Event.Other 2]
      [[Event.Other 3], []] (by decide) (by decide)).2.2.1⟩

/-- C3: draining pending events none of which is `Closed` leaves the open flag
of the window and the circle (radius, fill colour, position) as they were;
draining again right after changes neither the window nor the circle; and so
does queueing and draining any further batches without a `Closed` event. -/
theorem C3_non_close_events_change_nothing (s : State) (feed : List (List Event))
    (hpending : Event.Closed ∉ s.window.pending)
    (hfeed : ∀ batch ∈ feed, Event.Closed ∉ batch) :
    ((processEvents s).window.isOpen = s.window.isOpen ∧
      (processEvents s).circle.radius = s.circle.radius ∧
      (processEvents s).circle.fillColor = s.circle.fillColor ∧
      (processEvents s).circle.position = s.circle.position) ∧
    ((processEvents (processEvents s)).window = (processEvents s).window ∧
      (processEvents (processEvents s)).circle = (processEvents s).circle) ∧
    ((drainBatches (processEvents s) feed).window.isOpen = s.window.isOpen ∧
      (drainBatches (processEvents s) feed).circle = s.circle) := by
  have h1 := processEvents_isOpen_of_no_close s hpending
  have h2 : (processEvents s).circle = s.circle := by simp [processEvents_eq, drained]
  have h3 := drainBatches_no_close feed (processEvents s)
    (processEvents_pending_no_close s hpending) hfeed
  refine ⟨⟨h1, by rw [h2], by rw [h2], by rw [h2]⟩, ⟨?_, ?_⟩, ?_⟩
  · cases ho : s.window.isOpen <;>
      simp [processEvents_eq, drained, ho, any_isClosed_false _ hpending]
  · simp [processEvents_eq, drained]
  · rw [h3.1, h3.2, h1, h2]
    exact ⟨rfl, rfl⟩

/-- A run of C3: key and mouse events pending on the fresh window, two more
batches of such events after them. -/
theorem C3_non_close_events_change_nothing_witness :
    (drainBatches (processEvents (arrive [Event.Other 5, Event.Other 9] setup))
        [[Event.Other 1], [Event.Other 2, Event.Other 2]]).window.isOpen = true ∧
    (drainBatches (processEvents (arrive [Event.Other 5, Event.Other 9] setup))
        [[Event.Other 1], [Event.Other 2, Event.Other 2]]).circle =
      { radius := 100, fillColor := Color.Green, position := ⟨350, 250⟩ } :=
  (C3_non_close_events_change_nothing (arrive [Event.Other 5, Event.Other 9] setup)
    [[Event.Other 1], [Event.Other 2, Event.Other 2]] (by decide) (by decide)).2.2

/-- C4: from an open window with no `Closed` event pending, against batches
none of which holds a `Closed` event, after every number of completed
iterations the loop has not exited, the window is still open, and the body
has run once for every batch of the prefix. -/
theorem C4_loop_runs_while_no_close (s : State) (feed : List (List Event)) (k : Nat)
    (hopen : s.window.isOpen = true)
    (hpending : Event.Closed ∉ s.window.pending)
    (hfeed : ∀ batch ∈ feed, Event.Closed ∉ batch) :
    (gameLoop s (feed.take k)).exited = false ∧
    (gameLoop s (feed.take k)).final.window.isOpen = true ∧
    (gameLoop s (feed.take k)).iterations = (feed.take k).length :=
  gameLoop_no_close (feed.take k) s hopen hpending
    (fun batch hb => hfeed batch (List.mem_of_mem_take hb))

/-- A run of C4: three batches without `Closed`, looked at after two
iterations. -/
theorem C4_loop_runs_while_no_close_witness :
    (gameLoop setup (List.take 2 [[Event.Other 1], [], [Event.Other 7, Event.Other 1]])).exited
        = false ∧
    (gameLoop setup
        (List.take 2 [[Event.Other 1], [], [Event.Other 7, Event.Other 1]])).iterations
      = (List.take 2 [[Event.Other 1], [], [Event.Other 7, Event.Other 1]]).length :=
  ⟨(C4_loop_runs_while_no_close setup [[Event.Other 1], [], [Event.Other 7, Event.Other 1]] 2
      (by decide) (by decide) (by decide)).1,
   (C4_loop_runs_while_no_close setup [[Event.Other 1], [], [Event.Other 7, Event.Other 1]] 2
      (by decide) (by decide) (by decide)).2.2⟩

/-- C5: the circle is set up with radius 100, fill colour green and position
(350, 250); one iteration of the loop leaves the circle of any state as it
was, whatever events it drains; and after any run of `main`, whatever the
batches of events and however many iterations, the circle still has these
three values. -/
theorem C5_circle_invariant (feed : List (List Event)) :
    (setup.circle.radius = 100 ∧ setup.circle.fillColor = ⟨0, 255, 0, 255⟩ ∧
      setup.circle.position = ⟨350, 250⟩) ∧
    (∀ (s : State) (batch : List Event), (frame (arrive batch s)).circle = s.circle) ∧
    ((main feed).1.final.circle.radius = 100 ∧
      (main feed).1.final.circle.fillColor = Color.Green ∧
      (main feed).1.final.circle.position = ⟨350, 250⟩) := by
  have h : (main feed).1.final.circle = setup.circle := gameLoop_circle feed setup
  refine ⟨⟨rfl, rfl, rfl⟩, ?_, ?_⟩
  · intro s batch
    simp [frame_eq, arrive]
  · rw [h]
    exact ⟨rfl, rfl, rfl⟩

/-- C6: every iteration adds to the trace the calls of the event drain, none of
which is a clear, a draw or a display, and after them exactly clear, draw of
the circle, display, in this order.  Over a whole run of `main` the render
calls of the trace are this triple, with the circle of radius 100, green, at
(350, 250), once per iteration; so the numbers of clears, of draws of that
circle and of displays all equal the number of iterations, and no other shape
is ever drawn. -/
theorem C6_one_frame_per_iteration (feed : List (List Event)) :
    (∀ s : State,
      (frame s).calls = (processEvents s).calls ++
        [Call.clear, Call.draw s.circle, Call.display] ∧
      (processEvents s).calls = s.calls ++ drainCalls s.window.isOpen s.window.pending ∧
      (drainCalls s.window.isOpen s.window.pending).filter Call.isRender = []) ∧
    (main feed).1.final.calls.filter Call.isRender =
      renderCalls { radius := 100, fillColor := Color.Green, position := ⟨350, 250⟩ }
        (main feed).1.iterations ∧
    (main feed).1.final.calls.count Call.clear = (main feed).1.iterations ∧
    (main feed).1.final.calls.count
      (Call.draw { radius := 100, fillColor := Color.Green, position := ⟨350, 250⟩ }) =
        (main feed).1.iterations ∧
    (main feed).1.final.calls.count Call.display = (main feed).1.iterations ∧
    (∀ shape : CircleShape, Call.draw shape ∈ (main feed).1.final.calls →
      shape = { radius := 100, fillColor := Color.Green, position := ⟨350, 250⟩ }) := by
  have hr := main_filter_isRender feed
  have hc : setup.circle =
      { radius := 100, fillColor := Color.Green, position := ⟨350, 250⟩ } := rfl
  rw [hc] at hr
  refine ⟨?_, hr, ?_, ?_, ?_, ?_⟩
  · intro s
    refine ⟨?_, ?_, drainCalls_filter_isRender _ _⟩
    · simp [frame_eq, processEvents_eq, drained]
    · simp [processEvents_eq, drained]
  · have h : Call.isRender Call.clear = true := rfl
    rw [← List.count_filter h, hr, renderCalls_count_clear]
  · have h : Call.isRender
        (Call.draw { radius := 100, fillColor := Color.Green, position := ⟨350, 250⟩ }) =
          true := rfl
    rw [← List.count_filter h, hr, renderCalls_count_draw]
  · have h : Call.isRender Call.display = true := rfl
    rw [← List.count_filter h, hr, renderCalls_count_display]
  · intro shape hm
    have h : Call.draw shape ∈ (main feed).1.final.calls.filter Call.isRender :=
      List.mem_filter.2 ⟨hm, rfl⟩
    rw [hr] at h
    exact renderCalls_draw_mem _ _ _ h

/-- C7: in every run of `main` the first call of the trace creates a window of
width 800 and height 600 titled "SFML window", no later call of the trace
creates a window, and the window of the last state still has this size and
title. -/
theorem C7_one_window_created (feed : List (List Event)) :
    (∃ later : List Call,
      (main feed).1.final.calls =
        Call.create { width := 800, height := 600 } "SFML window" :: later ∧
      ∀ c ∈ later, c.isCreate = false) ∧
    (main feed).1.final.window.mode = { width := 800, height := 600 } ∧
    (main feed).1.final.window.title = "SFML window" := by
  obtain ⟨added, ha⟩ := gameLoop_calls_extend feed setup
  have hf := gameLoop_filter_isCreate feed setup
  have hp := gameLoop_window_params feed setup
  refine ⟨⟨added, ?_, ?_⟩, ?_, ?_⟩
  · simpa [main, setup] using ha
  · rw [ha] at hf
    simp only [setup, List.filter_append, List.filter_cons, Call.isCreate, if_true,
      List.filter_nil, List.cons_append, List.nil_append, List.cons.injEq, true_and,
      List.filter_eq_nil_iff] at hf
    intro c hc
    simpa using hf c hc
  · exact hp.1
  · exact hp.2

/-- C8: a run of `main` whose loop has exited returns exit code 0; no run
returns another code; a run returns (with 0) exactly when some batch of its
events holds a `Closed` event, and has no exit code yet exactly while its
loop has not exited. -/
theorem C8_exit_code_zero (feed : List (List Event)) :
    ((main feed).1.exited = true → (main feed).2 = some 0) ∧
    (∀ code : Int, (main feed).2 = some code → code = 0) ∧
    ((main feed).2 = some 0 ↔ ∃ batch ∈ feed, Event.Closed ∈ batch) ∧
    ((main feed).2 = none ↔ (main feed).1.exited = false) := by
  have hx : (gameLoop setup feed).exited = true ↔ ∃ batch ∈ feed, Event.Closed ∈ batch :=
    gameLoop_exited_iff_close feed setup rfl rfl
  have hm : (main feed).1 = gameLoop setup feed := rfl
  have h2 : (main feed).2 = if (gameLoop setup feed).exited then some 0 else none := rfl
  rw [hm, h2, ← hx]
  cases (gameLoop setup feed).exited <;> simp

/-- C9: from an open window, in the iteration whose drained events (those
pending, then the batch just queued) contain a `Closed` event, `close` does
not leave the loop body.  The trace of the run is: the trace so far, the
successful check, one poll for each event ahead of the first `Closed`, the
poll that returns `Closed`, the `close`, the poll that finds no event on the
closed window, then clear, draw of the circle and display once each, and
last the check that fails.  The run has exited after this one iteration. -/
theorem C9_close_falls_through_to_render (s : State) (batch : List Event)
    (rest : List (List Event)) (hopen : s.window.isOpen = true)
    (hclose : Event.Closed ∈ s.window.pending ++ batch) :
    (gameLoop s (batch :: rest)).final.calls =
      s.calls ++ [Call.isOpen true] ++
        ((s.window.pending ++ batch).takeWhile (fun e => !e.isClosed)).map
          (fun e => Call.pollEvent (some e)) ++
        [Call.pollEvent (some Event.Closed), Call.close, Call.pollEvent none,
          Call.clear, Call.draw s.circle, Call.display, Call.isOpen false] ∧
    (gameLoop s (batch :: rest)).iterations = 1 ∧
    (gameLoop s (batch :: rest)).exited = true := by
  have hq : (s.window.pending ++ batch).any Event.isClosed = true :=
    (any_isClosed_iff _).2 hclose
  have hc : (frame (arrive batch (s.emit (Call.isOpen true)))).window.isOpen = false := by
    rw [frame_arrive_isOpen, hopen, hq]; rfl
  obtain ⟨hsplit, hbefore⟩ := split_at_first_close _ hclose
  have hd := drainCalls_upto_close _
    (((s.window.pending ++ batch).dropWhile (fun e => !e.isClosed)).tail) hbefore
  rw [← hsplit] at hd
  rw [gameLoop_open_cons s batch rest hopen, gameLoop_closed _ rest hc]
  refine ⟨?_, rfl, rfl⟩
  simp [frame_eq, arrive, State.emit, hopen, hd]

/-- A run of C9: `Closed` arrives second in the first batch, with one event
behind it. -/
theorem C9_close_falls_through_to_render_witness :
    (gameLoop setup
        ([Event.Other 4, Event.Closed, Event.Other 5] :: [[Event.Other 1]])).final.calls =
      [Call.create { width := 800, height := 600 } "SFML window", Call.isOpen true,
        Call.pollEvent (some (Event.Other 4)),
        Call.pollEvent (some Event.Closed), Call.close, Call.pollEvent none,
        Call.clear,
        Call.draw { radius := 100, fillColor := Color.Green, position := ⟨350, 250⟩ },
        Call.display, Call.isOpen false] :=
  (C9_close_falls_through_to_render setup [Event.Other 4, Event.Closed, Event.Other 5]
    [[Event.Other 1]] (by decide) (by decide)).1

/-- C10, as stated, fails.  On the freshly created, open window with `Closed`
and then another event pending, the inner loop polls `Closed`, closes the
window, and its next poll returns no event: the event queued behind `Closed`
was pending and is never polled. -/
theorem C10_event_behind_close_not_polled :
    (arrive [Event.Closed, Event.Other 4] setup).window.isOpen = true ∧
    Event.Other 4 ∈ (arrive [Event.Closed, Event.Other 4] setup).window.pending ∧
    Call.pollEvent (some (Event.Other 4)) ∉
      (processEvents (arrive [Event.Closed, Event.Other 4] setup)).calls ∧
    pollResults (processEvents (arrive [Event.Closed, Event.Other 4] setup)).calls =
      [some Event.Closed, none] := by
  rw [processEvents_eq]
  decide

/-- C10, amended: the inner loop, a total function, polls one event at a time
in queue order until a poll returns no event, and calls `close` once per
polled `Closed` event, so each polled event is tested.  Its calls are those
of `drainCalls`, its polls return the events of `polledEvents` and then no
event.  On an open window no event is pending when it ends; with no `Closed`
event in the queue every pending event has been polled; with one, the polls
stop right behind the first `Closed` event, the window is closed, and the
events queued behind it are dropped, not polled.  On a closed window the
only call is one poll, which returns no event. -/
theorem C10_drain_polls_up_to_close (s : State) :
    (processEvents s).calls = s.calls ++ drainCalls s.window.isOpen s.window.pending ∧
    pollResults (processEvents s).calls =
      pollResults s.calls ++
        ((polledEvents s.window.isOpen s.window.pending).map some ++ [none]) ∧
    (drainCalls s.window.isOpen s.window.pending).count Call.close =
      (polledEvents s.window.isOpen s.window.pending).count Event.Closed ∧
    (s.window.isOpen = true → (processEvents s).window.pending = []) ∧
    (s.window.isOpen = true → Event.Closed ∉ s.window.pending →
      pollResults (processEvents s).calls =
        pollResults s.calls ++ (s.window.pending.map some ++ [none]) ∧
      (processEvents s).window.isOpen = true) ∧
    (s.window.isOpen = true → ∀ (before behind : List Event),
      s.window.pending = before ++ Event.Closed :: behind → Event.Closed ∉ before →
      (processEvents s).calls =
        s.calls ++ before.map (fun e => Call.pollEvent (some e)) ++
          [Call.pollEvent (some Event.Closed), Call.close, Call.pollEvent none] ∧
      pollResults (processEvents s).calls =
        pollResults s.calls ++ (before.map some ++ [some Event.Closed, none]) ∧
      (processEvents s).window.isOpen = false) ∧
    (s.window.isOpen = false →
      (processEvents s).calls = s.calls ++ [Call.pollEvent none] ∧
      (processEvents s).window.pending = s.window.pending) := by
  have hcalls : (processEvents s).calls =
      s.calls ++ drainCalls s.window.isOpen s.window.pending := by
    simp [processEvents_eq, drained]
  have hpolls : pollResults (processEvents s).calls =
      pollResults s.calls ++
        ((polledEvents s.window.isOpen s.window.pending).map some ++ [none]) := by
    rw [hcalls, pollResults_append, drainCalls_pollResults]
  refine ⟨hcalls, hpolls, drainCalls_count_close _ _, ?_, ?_, ?_, ?_⟩
  · intro ho
    simp [processEvents_eq, drained, ho]
  · intro ho hn
    refine ⟨?_, ?_⟩
    · rw [hpolls, ho, polledEvents_no_close _ hn]
    · simp [processEvents_eq, drained, ho, any_isClosed_false _ hn]
  · intro ho before behind hq hb
    refine ⟨?_, ?_, ?_⟩
    · rw [hcalls, ho, hq, drainCalls_upto_close _ _ hb, List.append_assoc]
    · rw [hpolls, ho, hq, polledEvents_upto_close _ _ hb]
      simp
    · have ha : s.window.pending.any Event.isClosed = true :=
        (any_isClosed_iff _).2 (by rw [hq]; simp)
      simp only [processEvents_eq, drained, ho, ha]
      rfl
  · intro hc
    refine ⟨?_, ?_⟩
    · rw [hcalls, hc]
      cases s.window.pending <;> rfl
    · simp [processEvents_eq, drained, hc]

/-- A drain of C10: `Closed` second of three events pending on the fresh
window; the third is not polled. -/
theorem C10_drain_polls_up_to_close_witness :
    pollResults
        (processEvents (arrive [Event.Other 2, Event.Closed, Event.Other 3] setup)).calls =
      pollResults (arrive [Event.Other 2, Event.Closed, Event.Other 3] setup).calls ++
        ([Event.Other 2].map some ++ [some Event.Closed, none]) ∧
    (processEvents
        (arrive [Event.Other 2, Event.Closed, Event.Other 3] setup)).window.isOpen = false :=
  ((C10_drain_polls_up_to_close
      (arrive [Event.Other 2, Event.Closed, Event.Other 3] setup)).2.2.2.2.2.1
    (by decide) [Event.Other 2] [Event.Other 3] (by decide) (by decide)).2

end SfmlDemo
